import Mathlib

set_option autoImplicit false
set_option maxHeartbeats 1000000

/-!
Shallow embedding of `AudioKit/Common/Internals/Utilities/AKTimeLine.c`.

Conventions of the embedding:
* `Float64` sample-time values are embedded as rationals (`ℚ`); the operations
  the source performs on them (addition, subtraction, `fmod`, comparisons,
  truncating conversions to the integer types) are exact on the values the
  claims range over.
* `UInt64` host times are naturals, reduced mod `2 ^ 64` at every arithmetic
  write, with the source's explicit underflow clamp kept.
* `UInt32`/`SInt64`/`int` values are `ℕ`/`ℤ` with the C conversions
  (truncation toward zero, reduction mod `2 ^ 32`) made explicit.
* The `mFlags` bits the source reads (`kAudioTimeStampSampleTimeValid`,
  `kAudioTimeStampHostTimeValid`) are the two booleans of `AudioTimeStamp`.
* The process-wide `ticksToSeconds()` constant is passed as a parameter `tts`.
* The render callback pointer is modelled by a boolean `hasCb` (non-NULL or
  NULL); callback invocations are returned as the list of
  `(playerTime, frameCount)` arguments.
* `pthread_mutex_trylock` succeeding or failing in `AKTimeLineRender` is an
  environment input, modelled as the boolean `lockAcquired`.
* The unbounded `while (framesToRender)` loop of `AKTimeLineRender` is run on
  explicit fuel; the `Bool` in `RenderResult` records whether the loop
  actually finished (`framesToRender` reached zero) within the given fuel, so
  non-termination of the source loop is expressible as: no fuel completes.
-/

/-- Dual-domain audio timestamp: the `mSampleTime` (`Float64`) and `mHostTime`
(`UInt64`) fields of a CoreAudio `AudioTimeStamp`, plus the two validity bits
of `mFlags` that `AKTimeLine.c` reads. -/
structure AudioTimeStamp where
  mSampleTime : ℚ
  mHostTime : ℕ
  sampleValid : Bool
  hostValid : Bool
deriving DecidableEq

/-- The zeroed `AudioTimeStamp` constant `AudioTimeZero` of the source. -/
def AudioTimeZero : AudioTimeStamp := ⟨0, 0, false, false⟩

/-- The `AKTimeLineMessage` struct: the value snapshot sent from the control
thread to the render thread. -/
structure AKTimeLineMessage where
  loopStart : ℚ
  loopEnd : ℚ
  baseTime : AudioTimeStamp
  waitStart : AudioTimeStamp
deriving DecidableEq

/-- The `AKTimeline` struct.  The control-thread fields (`loopStart`,
`loopEnd`, `baseTime`, `waitStart`, `idleTime`) and the render-thread shadow
fields (`_baseTime`, `_loopStart`, `_loopEnd`, `_waitStart`) follow the
spec's data model (the header declaring the struct is not part of the
sources; its field list is modelled from the spec and from every use in
`AKTimeLine.c`).  The `TPCircularBuffer` message queue is a FIFO list of
messages with capacity 32. -/
structure AKTimeline where
  sampleRate : ℚ
  messageQueue : List AKTimeLineMessage
  loopStart : ℚ
  loopEnd : ℚ
  baseTime : AudioTimeStamp
  waitStart : AudioTimeStamp
  idleTime : ℚ
  anchorTime : AudioTimeStamp
  lastRenderTime : AudioTimeStamp
  lastRenderFrames : ℕ
  _baseTime : AudioTimeStamp
  _loopStart : ℚ
  _loopEnd : ℚ
  _waitStart : AudioTimeStamp
deriving DecidableEq

/-- Embeds `SampleTimeValid`: `timeStamp.mFlags & kAudioTimeStampSampleTimeValid`. -/
def SampleTimeValid (t : AudioTimeStamp) : Bool := t.sampleValid

/-- Embeds `HostTimeValid`: `timeStamp.mFlags & kAudioTimeStampHostTimeValid`. -/
def HostTimeValid (t : AudioTimeStamp) : Bool := t.hostValid

/-- Embeds `SampleAndHostTimeValid`: both validity bits set. -/
def SampleAndHostTimeValid (t : AudioTimeStamp) : Bool :=
  SampleTimeValid t && HostTimeValid t

/-- Truncation toward zero: the C conversion from `Float64` to a signed
integer type. -/
def ratTrunc (x : ℚ) : ℤ := if 0 ≤ x then ⌊x⌋ else ⌈x⌉

/-- C99 `round`: round half away from zero. -/
def cround (x : ℚ) : ℤ := if 0 ≤ x then ⌊x + 1 / 2⌋ else -⌊-x + 1 / 2⌋

/-- C `fmod x y = x - trunc (x / y) * y` (for `y ≠ 0`; the source only
reaches `fmod` with the divisor nonzero on the inputs settled here). -/
def fmodQ (x y : ℚ) : ℚ := x - (ratTrunc (x / y) : ℚ) * y

/-- The C conversion from a nonnegative in-range `Float64` to `UInt32`
(truncation toward zero); out-of-range conversions are undefined behaviour in
C and are modelled by the wrap. -/
def f64ToUInt32 (x : ℚ) : ℕ := (ratTrunc x).toNat % 2 ^ 32

/-- Reduction of a signed value into the `UInt64` range, as performed by a C
store to a `UInt64` lvalue. -/
def u64wrap (x : ℤ) : ℕ := (x % (2 ^ 64 : ℤ)).toNat

/-- Embeds `safeSubtract`: signed difference of two `UInt64` values without unsigned
underflow. -/
def safeSubtract (a b : ℕ) : ℤ :=
  if b ≤ a then ((a - b : ℕ) : ℤ) else -(((b - a : ℕ) : ℤ))

/-- Embeds `TimeStampOffset(timeStamp, samples, sampleRate)`: advance the sample
domain by `samples` if valid; advance the host domain by
`round(samples / sampleRate / ticksToSeconds())` ticks if valid, leaving the
host value unchanged when the negative tick offset would underflow the
`UInt64`. -/
def TimeStampOffset (tts sampleRate : ℚ) (timeStamp : AudioTimeStamp)
    (samples : ℤ) : AudioTimeStamp :=
  let t1 := if timeStamp.sampleValid then
    { timeStamp with mSampleTime := timeStamp.mSampleTime + (samples : ℚ) }
    else timeStamp
  if t1.hostValid then
    let seconds : ℚ := (samples : ℚ) / sampleRate
    let offset : ℤ := cround (seconds / tts)
    if offset < 0 ∧ (t1.mHostTime : ℤ) < -offset then t1
    else { t1 with mHostTime := u64wrap ((t1.mHostTime : ℤ) + offset) }
  else t1

/-- Embeds `AudioTimeStampWithSampleHost`: a stamp with both domains populated and
both validity bits set. -/
def AudioTimeStampWithSampleHost (sampleTime : ℚ) (hostTime : ℕ) :
    AudioTimeStamp :=
  ⟨sampleTime, hostTime, true, true⟩

/-- Embeds `extrapolateTime(timeStamp, anchorTime, sampleRate)`: derive the missing
domain of `timeStamp` from the both-domains-valid `anchorTime` and mark it
valid. -/
def extrapolateTime (tts sampleRate : ℚ) (timeStamp anchorTime : AudioTimeStamp) :
    AudioTimeStamp :=
  if timeStamp.sampleValid then
    let secondsDiff : ℚ := (timeStamp.mSampleTime - anchorTime.mSampleTime) / sampleRate
    { timeStamp with
      mHostTime := u64wrap ((anchorTime.mHostTime : ℤ) + cround (secondsDiff / tts)),
      hostValid := true }
  else
    let secondsDiff : ℚ := (safeSubtract timeStamp.mHostTime anchorTime.mHostTime : ℚ) * tts
    { timeStamp with
      mSampleTime := anchorTime.mSampleTime + (cround (secondsDiff * sampleRate) : ℚ),
      sampleValid := true }

/-- Embeds `AKTimelineIsStarted`: the base time has at least one valid domain. -/
def AKTimelineIsStarted (tl : AKTimeline) : Bool :=
  SampleTimeValid tl.baseTime || HostTimeValid tl.baseTime

/-- Embeds `AKTimelineSendMessage`: append a message to the capacity-32 ring,
force-consuming the oldest entries when full. -/
def AKTimelineSendMessage (tl : AKTimeline) (m : AKTimeLineMessage) : AKTimeline :=
  let q := if tl.messageQueue.length < 32 then tl.messageQueue
           else tl.messageQueue.drop (tl.messageQueue.length - 31)
  { tl with messageQueue := q ++ [m] }

/-- Embeds `AKTimelineSyncronize`: enqueue a snapshot of the control-thread state. -/
def AKTimelineSyncronize (tl : AKTimeline) : AKTimeline :=
  AKTimelineSendMessage tl ⟨tl.loopStart, tl.loopEnd, tl.baseTime, tl.waitStart⟩

/-- Embeds `AKTimelineSetState(timeline, sampleTime, loopSampleStart, loopSampleEnd,
audioTime)`: `sampleTime` is `SInt64`, the loop bounds are `UInt32`. -/
def AKTimelineSetState (tts : ℚ) (tl : AKTimeline) (sampleTime : ℤ)
    (loopSampleStart loopSampleEnd : ℕ) (audioTime : AudioTimeStamp) : AKTimeline :=
  let audioTime := TimeStampOffset tts tl.sampleRate audioTime (-sampleTime)
  let audioTime := if SampleAndHostTimeValid tl.anchorTime then
    extrapolateTime tts tl.sampleRate audioTime tl.anchorTime else audioTime
  AKTimelineSyncronize { tl with
    baseTime := audioTime,
    loopStart := (loopSampleStart : ℚ),
    loopEnd := (loopSampleEnd : ℚ) }

/-- Embeds `AKTimelineStartAtTime`: no-op if already started; otherwise record
`waitStart` and delegate to `AKTimelineSetState`, whose `SInt64`/`UInt32`
parameters truncate `idleTime` and the `Float64` loop bounds. -/
def AKTimelineStartAtTime (tts : ℚ) (tl : AKTimeline) (audioTime : AudioTimeStamp) :
    AKTimeline :=
  if AKTimelineIsStarted tl then tl
  else
    let audioTime := if SampleAndHostTimeValid tl.anchorTime then
      extrapolateTime tts tl.sampleRate audioTime tl.anchorTime else audioTime
    let tl := { tl with waitStart := audioTime }
    AKTimelineSetState tts tl (ratTrunc tl.idleTime)
      (f64ToUInt32 tl.loopStart) (f64ToUInt32 tl.loopEnd) audioTime

/-- Embeds `AKTimelineStart`, after its busy-wait for a first render call has
observed `lastRenderFrames ≠ 0`: start at the next render boundary. -/
def AKTimelineStart (tts : ℚ) (tl : AKTimeline) : AKTimeline :=
  AKTimelineStartAtTime tts tl
    (TimeStampOffset tts tl.sampleRate tl.lastRenderTime (tl.lastRenderFrames : ℤ))

/-- Embeds `AKTimelineSetLoop` (its `assert(start >= 0 && duration >= 0)` is a
caller contract, not a branch). -/
def AKTimelineSetLoop (tl : AKTimeline) (start duration : ℚ) : AKTimeline :=
  AKTimelineSyncronize { tl with loopStart := start, loopEnd := start + duration }

/-- Embeds `AKTimelineTimeAtTime`: returns the reported position together with the
timeline as left behind by the call (the source writes `timeline->baseTime`
in place when its sample domain is missing).  The mixed reads of shadow and
control fields on lines 88-92 of the source (`_baseTime`, `_loopEnd` vs
`loopEnd`, `_loopStart`, `_loopEnd - loopStart`) are kept verbatim. -/
def AKTimelineTimeAtTime (tts : ℚ) (tl : AKTimeline) (audioTime : AudioTimeStamp) :
    ℚ × AKTimeline :=
  if ¬ (AKTimelineIsStarted tl = true) then (tl.idleTime, tl)
  else if ¬ (SampleAndHostTimeValid tl.anchorTime = true) then (tl.idleTime, tl)
  else
    let tl := if ¬ (SampleTimeValid tl.baseTime = true) then
      { tl with baseTime := extrapolateTime tts tl.sampleRate tl.baseTime tl.anchorTime }
      else tl
    let audioTime := if ¬ (SampleTimeValid audioTime = true) then
      extrapolateTime tts tl.sampleRate audioTime tl.anchorTime else audioTime
    let sampleTimeTotal := audioTime.mSampleTime - tl._baseTime.mSampleTime
    if tl._loopEnd = 0 ∨ sampleTimeTotal ≤ tl.loopEnd then
      (audioTime.mSampleTime - tl._baseTime.mSampleTime, tl)
    else
      (tl._loopStart + fmodQ (sampleTimeTotal - tl._loopStart) (tl._loopEnd - tl.loopStart), tl)

/-- Embeds `AKTimelineStop`. -/
def AKTimelineStop (tts : ℚ) (tl : AKTimeline) (now : AudioTimeStamp) : AKTimeline :=
  let r := AKTimelineTimeAtTime tts tl now
  AKTimelineSyncronize { r.2 with
    idleTime := r.1, baseTime := AudioTimeZero, waitStart := AudioTimeZero }

/-- Application of one drained message to the shadow state (the body of the
drain loop in `AKTimeLineRender`). -/
def applyMessage (tl : AKTimeline) (m : AKTimeLineMessage) : AKTimeline :=
  { tl with
    _baseTime := m.baseTime,
    _loopStart := m.loopStart,
    _loopEnd := m.loopEnd,
    _waitStart := m.waitStart }

/-- The drain loop of `AKTimeLineRender`: apply every pending message in
order and consume them all. -/
def drainMessages (tl : AKTimeline) : AKTimeline :=
  { tl.messageQueue.foldl applyMessage tl with messageQueue := [] }

/-- The drain phase of `AKTimeLineRender`: messages are drained only when the
non-blocking `pthread_mutex_trylock` succeeded. -/
def drained (tl : AKTimeline) (lockAcquired : Bool) : AKTimeline :=
  if lockAcquired then drainMessages tl else tl

/-- The state updates of `AKTimeLineRender` on the (already drained)
timeline: anchor latch, last-render bookkeeping, in-place resolution of
`_baseTime` against the current device timestamp (source line 187), and
in-place resolution of a host-only `_waitStart` against the anchor. -/
def renderUpdated (tts : ℚ) (tl : AKTimeline) (inTimeStamp : AudioTimeStamp)
    (inNumberFrames : ℕ) : AKTimeline :=
  let tl := if ¬ (SampleAndHostTimeValid tl.anchorTime = true) then
    { tl with anchorTime := inTimeStamp } else tl
  let tl := { tl with lastRenderTime := inTimeStamp, lastRenderFrames := inNumberFrames }
  if ¬ (SampleTimeValid tl._baseTime = true) ∧ ¬ (HostTimeValid tl._baseTime = true) then tl
  else
    let tl := if ¬ (SampleAndHostTimeValid tl._baseTime = true) then
      { tl with _baseTime := extrapolateTime tts tl.sampleRate tl._baseTime inTimeStamp }
      else tl
    if SampleTimeValid tl._waitStart = true then tl
    else if HostTimeValid tl._waitStart = true then
      { tl with _waitStart := extrapolateTime tts tl.sampleRate tl._waitStart tl.anchorTime }
    else tl

/-- The dispatch decision of `AKTimeLineRender`, computed on the updated
timeline: `none` when nothing is rendered this call (idle base time, or the
whole buffer precedes `waitStart`), otherwise the player-relative timestamp
and frame count after wait-start clipping. -/
def renderPlan (tts : ℚ) (tl : AKTimeline) (inTimeStamp : AudioTimeStamp)
    (inNumberFrames : ℕ) : Option (AudioTimeStamp × ℕ) :=
  if ¬ (SampleTimeValid tl._baseTime = true) ∧ ¬ (HostTimeValid tl._baseTime = true) then none
  else
    let waitStart : ℚ := if SampleTimeValid tl._waitStart = true then
      tl._waitStart.mSampleTime - tl._baseTime.mSampleTime else 0
    let startSample : ℤ := if waitStart > 0 then ratTrunc waitStart else 0
    let playerTime := AudioTimeStampWithSampleHost
      (inTimeStamp.mSampleTime - tl._baseTime.mSampleTime) inTimeStamp.mHostTime
    let samplesBelowZero : ℚ := if playerTime.mSampleTime < (startSample : ℚ) then
      (startSample : ℚ) - playerTime.mSampleTime else 0
    if samplesBelowZero ≠ 0 then
      if samplesBelowZero ≥ (inNumberFrames : ℚ) then none
      else some (TimeStampOffset tts tl.sampleRate playerTime (ratTrunc samplesBelowZero),
        (ratTrunc ((inNumberFrames : ℚ) - samplesBelowZero)).toNat % 2 ^ 32)
    else some (playerTime, inNumberFrames)

/-- Local state of the loop-splitting `while` loop of `AKTimeLineRender`. -/
structure LoopState where
  playerTime : AudioTimeStamp
  framesToRender : ℕ
  unlooped : ℚ
deriving DecidableEq

/-- The loop-splitting `while (framesToRender)` loop of `AKTimeLineRender`,
run on fuel.  `ls`/`le` are the shadow loop bounds (`Float64`), `loopDur` the
`UInt32` loop duration computed before the loop.  The C arithmetic is kept:
`int frames = _loopEnd - playerTime.mSampleTime` truncates toward zero, the
comparison `frames > framesToRender` converts the `int` to `UInt32`, and
`framesToRender -= frames` is `UInt32` arithmetic.  Returns the callback
invocations, the final loop state, and whether `framesToRender` reached
zero within the given fuel. -/
def renderLoop (tts sampleRate ls le : ℚ) (loopDur : ℕ) (hasCb : Bool) :
    ℕ → LoopState → List (AudioTimeStamp × ℕ) × LoopState × Bool
  | 0, st => ([], st, decide (st.framesToRender = 0))
  | fuel + 1, st =>
    if st.framesToRender = 0 then ([], st, true)
    else
      let pt := if st.unlooped ≥ le then
        { st.playerTime with mSampleTime := ls + fmodQ (st.unlooped - ls) (loopDur : ℚ) }
        else st.playerTime
      let framesI : ℤ := ratTrunc (le - pt.mSampleTime)
      let framesU : ℕ := (framesI % (2 ^ 32 : ℤ)).toNat
      let frames : ℤ := if framesU > st.framesToRender then (st.framesToRender : ℤ) else framesI
      let framesArg : ℕ := (frames % (2 ^ 32 : ℤ)).toNat
      let pt2 := TimeStampOffset tts sampleRate pt frames
      let st2 : LoopState :=
        ⟨pt2, (((st.framesToRender : ℤ) - frames) % (2 ^ 32 : ℤ)).toNat,
          st.unlooped + (frames : ℚ)⟩
      let rest := renderLoop tts sampleRate ls le loopDur hasCb fuel st2
      (if hasCb then (pt, framesArg) :: rest.1 else rest.1, rest.2)

/-- Result of one `AKTimeLineRender` call: the timeline as left behind, the
list of callback invocations, and whether the loop-splitting loop finished
within the given fuel. -/
structure RenderResult where
  timeline : AKTimeline
  segments : List (AudioTimeStamp × ℕ)
  completed : Bool
deriving DecidableEq

/-- Embeds `AKTimeLineRender(timeline, inTimeStamp, inNumberFrames)`. -/
def AKTimeLineRender (tts : ℚ) (hasCb : Bool) (tl : AKTimeline)
    (lockAcquired : Bool) (inTimeStamp : AudioTimeStamp) (inNumberFrames : ℕ)
    (fuel : ℕ) : RenderResult :=
  let tlu := renderUpdated tts (drained tl lockAcquired) inTimeStamp inNumberFrames
  match renderPlan tts tlu inTimeStamp inNumberFrames with
  | none => ⟨tlu, [], true⟩
  | some (pt, ftr) =>
    if tlu._loopEnd = 0 then
      ⟨tlu, if hasCb then [(pt, ftr)] else [], true⟩
    else
      let loopDur : ℕ := f64ToUInt32 (tlu._loopEnd - tlu._loopStart)
      let r := renderLoop tts tlu.sampleRate tlu._loopStart tlu._loopEnd loopDur hasCb
        fuel ⟨pt, ftr, pt.mSampleTime⟩
      ⟨tlu, r.1, r.2.2⟩

/-- Modelled from the spec: the segment schedule of §4.3 step 10, on whole
samples.  From player position `p`, unlooped elapsed position `u` and `n`
remaining frames inside loop window `[s, L)`: wrap to
`s + ((u - s) % (L - s))` once `u` has reached `L`, emit
`min n (L - position)` frames, advance, repeat.  This is the spec-side
definition compared against `renderLoop` in the refinement claim. -/
def specSegments (s L : ℕ) : ℕ → ℕ → ℕ → ℕ → List (ℕ × ℕ)
  | 0, _, _, _ => []
  | fuel + 1, p, u, n =>
    if n = 0 then []
    else
      let p2 := if u ≥ L then s + (u - s) % (L - s) else p
      let k := min n (L - p2)
      (p2, k) :: specSegments s L fuel (p2 + k) (u + k) (n - k)

/-! ### Arithmetic helper lemmas -/

lemma ratTrunc_natCast (a : ℕ) : ratTrunc (a : ℚ) = (a : ℤ) := by
  simp [ratTrunc]

lemma cround_neg (x : ℚ) : cround (-x) = -cround x := by
  unfold cround
  rcases lt_trichotomy x 0 with h | h | h
  · rw [if_pos (by linarith), if_neg (by linarith)]
    simp
  · subst h
    norm_num
  · rw [if_neg (by linarith), if_pos (by linarith)]
    simp

lemma fmodQ_natCast (a b : ℕ) : fmodQ (a : ℚ) (b : ℚ) = ((a % b : ℕ) : ℚ) := by
  rcases Nat.eq_zero_or_pos b with hb | hb
  · subst hb
    simp [fmodQ, ratTrunc]
  · have hd : ((⌊(a : ℚ) / (b : ℚ)⌋ : ℤ) : ℚ) = ((a / b : ℕ) : ℚ) := by
      rw [Rat.floor_natCast_div_natCast, ← Int.natCast_div, Int.cast_natCast]
    rw [fmodQ, ratTrunc, if_pos (by positivity), hd]
    have h : ((a % b : ℕ) : ℚ) + ((b : ℕ) : ℚ) * ((a / b : ℕ) : ℚ) = (a : ℚ) := by
      exact_mod_cast congrArg (fun z : ℕ => (z : ℚ)) (Nat.mod_add_div a b)
    linarith

lemma intEmod32_toNat (a : ℕ) (h : a < 2 ^ 32) :
    ((a : ℤ) % (2 ^ 32 : ℤ)).toNat = a := by
  rw [Int.emod_eq_of_lt (by positivity) (by exact_mod_cast h)]
  simp

lemma TimeStampOffset_sampleValid (tts sr : ℚ) (t : AudioTimeStamp) (k : ℤ) :
    (TimeStampOffset tts sr t k).sampleValid = t.sampleValid := by
  obtain ⟨ms, mh, sv, hv⟩ := t
  cases sv <;> cases hv <;> simp [TimeStampOffset] <;> split_ifs <;> rfl

lemma TimeStampOffset_hostValid (tts sr : ℚ) (t : AudioTimeStamp) (k : ℤ) :
    (TimeStampOffset tts sr t k).hostValid = t.hostValid := by
  obtain ⟨ms, mh, sv, hv⟩ := t
  cases sv <;> cases hv <;> simp [TimeStampOffset] <;> split_ifs <;> rfl

lemma TimeStampOffset_mSampleTime (tts sr : ℚ) (t : AudioTimeStamp) (k : ℤ)
    (h : t.sampleValid = true) :
    (TimeStampOffset tts sr t k).mSampleTime = t.mSampleTime + (k : ℚ) := by
  obtain ⟨ms, mh, sv, hv⟩ := t
  simp only at h
  subst h
  cases hv <;> simp [TimeStampOffset] <;> split_ifs <;> rfl

/-! ### The loop-splitting loop on whole-sample states -/

lemma renderLoop_step (tts sr : ℚ) (s L : ℕ) (pt : AudioTimeStamp) (p u n f : ℕ)
    (hasCb : Bool) (hsL : s < L) (hL : L ≤ 2 ^ 31)
    (hv : pt.sampleValid = true) (hps : pt.mSampleTime = (p : ℚ))
    (hn0 : n ≠ 0) (hn : n < 2 ^ 31) (hinv : u < L → p = u) :
    renderLoop tts sr (s : ℚ) (L : ℚ) (L - s) hasCb (f + 1) ⟨pt, n, (u : ℚ)⟩ =
      (let p2 : ℕ := if L ≤ u then s + (u - s) % (L - s) else p
       let k : ℕ := min n (L - p2)
       let pt1 : AudioTimeStamp := if L ≤ u then { pt with mSampleTime := (p2 : ℚ) } else pt
       let rest := renderLoop tts sr (s : ℚ) (L : ℚ) (L - s) hasCb f
         ⟨TimeStampOffset tts sr pt1 (k : ℤ), n - k, ((u + k : ℕ) : ℚ)⟩
       (if hasCb then (pt1, k) :: rest.1 else rest.1, rest.2)) := by
  have hLs_pos : 0 < L - s := by omega
  simp only [renderLoop]
  rw [if_neg hn0]
  by_cases hu : L ≤ u
  · have hsu : s ≤ u := by omega
    have hQ : (u : ℚ) ≥ (L : ℚ) := by exact_mod_cast hu
    simp only [if_pos hQ, if_pos hu]
    rw [← Nat.cast_sub hsu, fmodQ_natCast, ← Nat.cast_add]
    have hp2L : s + (u - s) % (L - s) < L := by
      have := Nat.mod_lt (u - s) hLs_pos
      omega
    rw [← Nat.cast_sub hp2L.le, ratTrunc_natCast,
      intEmod32_toNat (L - (s + (u - s) % (L - s))) (by omega)]
    have hfr : (if L - (s + (u - s) % (L - s)) > n then ((n : ℕ) : ℤ)
        else ((L - (s + (u - s) % (L - s)) : ℕ) : ℤ))
        = ((min n (L - (s + (u - s) % (L - s))) : ℕ) : ℤ) := by
      split <;> · push_cast; omega
    rw [hfr, intEmod32_toNat (min n (L - (s + (u - s) % (L - s)))) (by omega),
      ← Nat.cast_sub (by omega : min n (L - (s + (u - s) % (L - s))) ≤ n),
      intEmod32_toNat (n - min n (L - (s + (u - s) % (L - s)))) (by omega)]
    rw [show (u : ℚ) + (((min n (L - (s + (u - s) % (L - s))) : ℕ) : ℤ) : ℚ)
        = ((u + min n (L - (s + (u - s) % (L - s))) : ℕ) : ℚ) by push_cast; ring]
  · have hpu : p = u := hinv (by omega)
    have hpL : p < L := by omega
    have hQ : ¬ ((u : ℚ) ≥ (L : ℚ)) := by
      intro h
      exact hu (by exact_mod_cast h)
    simp only [if_neg hQ, if_neg hu]
    rw [hps, ← Nat.cast_sub hpL.le, ratTrunc_natCast,
      intEmod32_toNat (L - p) (by omega)]
    have hfr : (if L - p > n then ((n : ℕ) : ℤ) else ((L - p : ℕ) : ℤ))
        = ((min n (L - p) : ℕ) : ℤ) := by
      split <;> · push_cast; omega
    rw [hfr, intEmod32_toNat (min n (L - p)) (by omega),
      ← Nat.cast_sub (by omega : min n (L - p) ≤ n),
      intEmod32_toNat (n - min n (L - p)) (by omega)]
    rw [show (u : ℚ) + (((min n (L - p) : ℕ) : ℤ) : ℚ)
        = ((u + min n (L - p) : ℕ) : ℚ) by push_cast; ring]

lemma renderLoop_eq_spec (tts sr : ℚ) (s L : ℕ) (hsL : s < L) (hL : L ≤ 2 ^ 31) :
    ∀ (fuel fuel2 n p u : ℕ) (pt : AudioTimeStamp), n ≤ fuel → n ≤ fuel2 → n < 2 ^ 31 →
      pt.sampleValid = true → pt.mSampleTime = (p : ℚ) → (u < L → p = u) →
      ((renderLoop tts sr (s : ℚ) (L : ℚ) (L - s) true fuel ⟨pt, n, (u : ℚ)⟩).1.map
          (fun z => (z.1.mSampleTime, z.2))
        = (specSegments s L fuel2 p u n).map (fun z => ((z.1 : ℚ), z.2))) ∧
      (renderLoop tts sr (s : ℚ) (L : ℚ) (L - s) true fuel ⟨pt, n, (u : ℚ)⟩).2.2 = true := by
  intro fuel
  induction fuel with
  | zero =>
    intro fuel2 n p u pt hf hf2 hn hv hps hinv
    have hn0 : n = 0 := by omega
    subst hn0
    cases fuel2 <;> simp [renderLoop, specSegments]
  | succ f ih =>
    intro fuel2 n p u pt hf hf2 hn hv hps hinv
    by_cases hn0 : n = 0
    · subst hn0
      cases fuel2 <;> simp [renderLoop, specSegments]
    · obtain ⟨f2, rfl⟩ : ∃ f2, fuel2 = f2 + 1 := ⟨fuel2 - 1, by omega⟩
      rw [renderLoop_step tts sr s L pt p u n f true hsL hL hv hps hn0 hn hinv]
      simp only [specSegments, ge_iff_le]
      rw [if_neg hn0]
      set p2 : ℕ := if L ≤ u then s + (u - s) % (L - s) else p with hp2
      set k : ℕ := min n (L - p2) with hk
      have hp2L : p2 < L := by
        rw [hp2]
        split
        · rename_i h
          have := Nat.mod_lt (u - s) (by omega : 0 < L - s)
          omega
        · rename_i h
          have := hinv (by omega)
          omega
      have hk1 : 1 ≤ k := by omega
      have hkn : k ≤ n := by omega
      set pt1 : AudioTimeStamp :=
        if L ≤ u then { pt with mSampleTime := (p2 : ℚ) } else pt with hpt1
      have hpt1v : pt1.sampleValid = true := by
        rw [hpt1]
        split
        · exact hv
        · exact hv
      have hpt1s : pt1.mSampleTime = (p2 : ℚ) := by
        rw [hpt1]
        split
        · rfl
        · rename_i h
          rw [hps, hp2, if_neg h]
      have hpt2v : (TimeStampOffset tts sr pt1 (k : ℤ)).sampleValid = true := by
        rw [TimeStampOffset_sampleValid]
        exact hpt1v
      have hpt2s : (TimeStampOffset tts sr pt1 (k : ℤ)).mSampleTime = ((p2 + k : ℕ) : ℚ) := by
        rw [TimeStampOffset_mSampleTime tts sr pt1 (k : ℤ) hpt1v, hpt1s]
        push_cast
        ring
      have hinv2 : u + k < L → p2 + k = u + k := by
        intro h
        by_cases hu : L ≤ u
        · omega
        · have hpu := hinv (by omega)
          rw [hp2, if_neg hu]
          omega
      have IH := ih f2 (n - k) (p2 + k) (u + k) (TimeStampOffset tts sr pt1 (k : ℤ))
        (by omega) (by omega) (by omega) hpt2v hpt2s hinv2
      constructor
      · dsimp only
        rw [if_pos trivial, List.map_cons, List.map_cons]
        dsimp only
        rw [hpt1s]
        congr 1
        exact IH.1
      · dsimp only
        exact IH.2

/-! ### Framing lemmas for the render path -/

lemma renderLoop_noCb (tts sr ls le : ℚ) (loopDur : ℕ) :
    ∀ (fuel : ℕ) (st : LoopState),
      renderLoop tts sr ls le loopDur false fuel st
        = ([], (renderLoop tts sr ls le loopDur true fuel st).2) := by
  intro fuel
  induction fuel with
  | zero =>
    intro st
    rfl
  | succ f ih =>
    intro st
    simp only [renderLoop]
    by_cases h : st.framesToRender = 0
    · simp only [if_pos h]
    · simp only [if_neg h]
      rw [ih]
      simp

lemma drained_false (tl : AKTimeline) : drained tl false = tl := rfl

lemma drained_empty_true (tl : AKTimeline) (h : tl.messageQueue = []) :
    drained tl true = tl := by
  simp only [drained, drainMessages, if_pos, h, List.foldl_nil]
  rw [← h]

lemma renderUpdated_queue_set (tts : ℚ) (tl : AKTimeline) (ts : AudioTimeStamp)
    (n : ℕ) (q : List AKTimeLineMessage) :
    renderUpdated tts { tl with messageQueue := q } ts n
      = { renderUpdated tts tl ts n with messageQueue := q } := by
  simp only [renderUpdated]
  split_ifs <;> rfl

lemma renderPlan_queue_set (tts : ℚ) (tl : AKTimeline) (ts : AudioTimeStamp)
    (n : ℕ) (q : List AKTimeLineMessage) :
    renderPlan tts { tl with messageQueue := q } ts n = renderPlan tts tl ts n := rfl

lemma renderUpdated_messageQueue (tts : ℚ) (tl : AKTimeline) (ts : AudioTimeStamp)
    (n : ℕ) : (renderUpdated tts tl ts n).messageQueue = tl.messageQueue := by
  simp only [renderUpdated]
  split_ifs <;> rfl

lemma renderUpdated_loopStart (tts : ℚ) (tl : AKTimeline) (ts : AudioTimeStamp)
    (n : ℕ) : (renderUpdated tts tl ts n)._loopStart = tl._loopStart := by
  simp only [renderUpdated]
  split_ifs <;> rfl

lemma renderUpdated_loopEnd (tts : ℚ) (tl : AKTimeline) (ts : AudioTimeStamp)
    (n : ℕ) : (renderUpdated tts tl ts n)._loopEnd = tl._loopEnd := by
  simp only [renderUpdated]
  split_ifs <;> rfl

lemma render_timeline_eq (tts : ℚ) (hasCb : Bool) (tl : AKTimeline) (lock : Bool)
    (ts : AudioTimeStamp) (n fuel : ℕ) :
    (AKTimeLineRender tts hasCb tl lock ts n fuel).timeline
      = renderUpdated tts (drained tl lock) ts n := by
  simp only [AKTimeLineRender]
  split
  · rfl
  · split <;> rfl

lemma renderUpdated_sampleRate (tts : ℚ) (tl : AKTimeline) (ts : AudioTimeStamp)
    (n : ℕ) : (renderUpdated tts tl ts n).sampleRate = tl.sampleRate := by
  simp only [renderUpdated]
  split_ifs <;> rfl

lemma renderUpdated_baseTime_resolved (tts : ℚ) (tl : AKTimeline)
    (ts : AudioTimeStamp) (n : ℕ)
    (hb : SampleAndHostTimeValid tl._baseTime = true
        ∨ (tl._baseTime.sampleValid = false ∧ tl._baseTime.hostValid = false)) :
    (renderUpdated tts tl ts n)._baseTime = tl._baseTime := by
  have hb' : (tl._baseTime.sampleValid = true ∧ tl._baseTime.hostValid = true)
      ∨ (tl._baseTime.sampleValid = false ∧ tl._baseTime.hostValid = false) := by
    rcases hb with hb | hb
    · left
      simpa [SampleAndHostTimeValid, SampleTimeValid, HostTimeValid,
        Bool.and_eq_true] using hb
    · right
      exact hb
  rcases hb' with ⟨h1, h2⟩ | ⟨h1, h2⟩ <;>
  · simp only [renderUpdated, SampleAndHostTimeValid, SampleTimeValid, HostTimeValid]
    split_ifs <;> simp_all

lemma renderUpdated_waitStart_resolved (tts : ℚ) (tl : AKTimeline)
    (ts : AudioTimeStamp) (n : ℕ)
    (hw : tl._waitStart.hostValid = true → tl._waitStart.sampleValid = true) :
    (renderUpdated tts tl ts n)._waitStart = tl._waitStart := by
  simp only [renderUpdated, SampleAndHostTimeValid, SampleTimeValid, HostTimeValid]
  split_ifs <;> simp_all

lemma renderUpdated_baseTime_oneDomain (tts : ℚ) (tl : AKTimeline)
    (ts : AudioTimeStamp) (n : ℕ)
    (hx : (tl._baseTime.sampleValid = true ∧ tl._baseTime.hostValid = false)
        ∨ (tl._baseTime.sampleValid = false ∧ tl._baseTime.hostValid = true)) :
    (renderUpdated tts tl ts n)._baseTime
      = extrapolateTime tts tl.sampleRate tl._baseTime ts := by
  simp only [renderUpdated, SampleAndHostTimeValid, SampleTimeValid, HostTimeValid]
  split_ifs <;> simp_all

lemma render_noCb (tts : ℚ) (tl : AKTimeline) (lock : Bool) (ts : AudioTimeStamp)
    (n fuel : ℕ) :
    AKTimeLineRender tts false tl lock ts n fuel
      = ⟨(AKTimeLineRender tts true tl lock ts n fuel).timeline, [],
         (AKTimeLineRender tts true tl lock ts n fuel).completed⟩ := by
  simp only [AKTimeLineRender]
  split
  · rfl
  · split
    · simp
    · rw [renderLoop_noCb]

/-! ### Concrete fixtures -/

/-- Value of the process-wide `ticksToSeconds()` constant used in the
concrete scenarios: one millisecond per host tick. -/
def tts0 : ℚ := 1 / 1000

/-- A device timestamp at sample 0, host tick 1000, both domains valid. -/
def stamp0 : AudioTimeStamp := ⟨0, 1000, true, true⟩

/-- A started, fully resolved timeline whose loop window was set by
`AKTimelineSetLoop(0, 0.5)` and drained to the shadow state: `_loopEnd = 1/2`
is nonzero, so the splitting loop is active, but the window holds less than
one whole sample, so `(int)(_loopEnd - playerTime.mSampleTime)` truncates to
zero frames. -/
def fracLoopTimeline : AKTimeline :=
  { sampleRate := 44100, messageQueue := [], loopStart := 0, loopEnd := 1 / 2,
    baseTime := stamp0, waitStart := AudioTimeZero, idleTime := 0,
    anchorTime := stamp0, lastRenderTime := stamp0, lastRenderFrames := 1,
    _baseTime := stamp0, _loopStart := 0, _loopEnd := 1 / 2,
    _waitStart := AudioTimeZero }

/-- Loop state of `AKTimeLineRender tts0 true fracLoopTimeline true stamp0 1`
at entry of the splitting loop: player position 0, one frame requested,
unlooped elapsed position 0. -/
def fracLoopState : LoopState := ⟨⟨0, 1000, true, true⟩, 1, 0⟩


lemma cround_zero : cround 0 = 0 := by
  rw [cround, if_pos le_rfl]
  norm_num [Int.floor_eq_iff]

lemma ratTrunc_half : ratTrunc (1 / 2) = 0 := by
  rw [ratTrunc, if_pos (by norm_num)]
  norm_num [Int.floor_eq_iff]

lemma TimeStampOffset_zero (tts sr : ℚ) (t : AudioTimeStamp)
    (hh : t.mHostTime < 2 ^ 64) : TimeStampOffset tts sr t 0 = t := by
  obtain ⟨ms, mh, sv, hv⟩ := t
  have hm : ((mh : ℤ) % (2 ^ 64 : ℤ)) = (mh : ℤ) := by
    refine Int.emod_eq_of_lt (by positivity) (by exact_mod_cast hh)
  cases sv <;> cases hv <;>
    simp [TimeStampOffset, cround_zero, u64wrap, hm]
  all_goals omega

lemma fracLoop_step (fuel : ℕ) :
    renderLoop tts0 44100 0 (1 / 2) 0 true (fuel + 1) fracLoopState
      = ((⟨0, 1000, true, true⟩, 0)
            :: (renderLoop tts0 44100 0 (1 / 2) 0 true fuel fracLoopState).1,
         (renderLoop tts0 44100 0 (1 / 2) 0 true fuel fracLoopState).2) := by
  have h0 : TimeStampOffset tts0 44100 (⟨0, 1000, true, true⟩ : AudioTimeStamp) 0
      = ⟨0, 1000, true, true⟩ := TimeStampOffset_zero _ _ _ (by norm_num)
  simp only [renderLoop, fracLoopState]
  norm_num [ratTrunc_half, h0]

lemma fracRender_eq (fuel : ℕ) :
    AKTimeLineRender tts0 true fracLoopTimeline true stamp0 1 fuel
      = ⟨fracLoopTimeline,
         (renderLoop tts0 44100 0 (1 / 2) 0 true fuel fracLoopState).1,
         (renderLoop tts0 44100 0 (1 / 2) 0 true fuel fracLoopState).2.2⟩ := by
  simp only [AKTimeLineRender, renderUpdated, renderPlan, drained, drainMessages,
    fracLoopTimeline, fracLoopState, stamp0, AudioTimeZero, SampleTimeValid,
    HostTimeValid, SampleAndHostTimeValid, AudioTimeStampWithSampleHost,
    f64ToUInt32]
  norm_num [ratTrunc_half]

lemma fracLoop_never (fuel : ℕ) :
    (renderLoop tts0 44100 0 (1 / 2) 0 true fuel fracLoopState).2.2 = false := by
  induction fuel with
  | zero => rfl
  | succ f ih =>
    rw [fracLoop_step]
    exact ih

lemma fracLoop_sum (fuel : ℕ) :
    ((renderLoop tts0 44100 0 (1 / 2) 0 true fuel fracLoopState).1.map
        (fun z => z.2)).sum = 0 := by
  induction fuel with
  | zero => rfl
  | succ f ih =>
    rw [fracLoop_step]
    simpa using ih

/-- Timeline of the spec's concrete scenario: sample rate 44100, loop window
`[0, 100)` set and drained, started at sample 0, fully resolved. -/
def loopTimeline100 : AKTimeline :=
  { sampleRate := 44100, messageQueue := [], loopStart := 0, loopEnd := 100,
    baseTime := stamp0, waitStart := AudioTimeZero, idleTime := 0,
    anchorTime := stamp0, lastRenderTime := stamp0, lastRenderFrames := 150,
    _baseTime := stamp0, _loopStart := 0, _loopEnd := 100,
    _waitStart := AudioTimeZero }

/-- C4: the claim asserts that every `AKTimeLineRender` call terminates for
every `ShadowState` reachable through the Control API, including any loop
bounds accepted by `AKTimelineSetLoop` (`start >= 0 && duration >= 0`).
This is false: with the loop window set by `setLoop(0, 0.5)` (accepted by
the assert) and drained into the shadow state, `_loopEnd = 1/2` is nonzero,
`(int)(_loopEnd - playerTime.mSampleTime)` truncates to zero frames, and
the `while (framesToRender)` loop of `AKTimeLineRender` makes no progress:
no amount of fuel completes the call at device timestamp `stamp0` with one
frame requested. -/
theorem c4_render_nonterminating :
    ¬ ∃ fuel, (AKTimeLineRender tts0 true fracLoopTimeline true stamp0 1
      fuel).completed = true := by
  rintro ⟨fuel, h⟩
  simp only [fracRender_eq] at h
  rw [fracLoop_never] at h
  exact Bool.false_ne_true h

/-- C2: the claim asserts that the segment frame counts of one render call
sum to the requested frames minus the wait-start clipping, for every started,
resolved timeline.  This is false on `fracLoopTimeline` (loop window
`[0, 0.5)` from `setLoop(0, 0.5)`, started and resolved, nothing clipped):
a one-frame render call dispatches only zero-frame segments (their sum is 0
at every fuel, never `1 - 0`) and the splitting loop never terminates. -/
theorem c2_frames_not_conserved :
    (∀ fuel, ((AKTimeLineRender tts0 true fracLoopTimeline true stamp0 1
        fuel).segments.map (fun z => z.2)).sum = 0)
    ∧ ¬ ∃ fuel, (AKTimeLineRender tts0 true fracLoopTimeline true stamp0 1
        fuel).completed = true
      ∧ ((AKTimeLineRender tts0 true fracLoopTimeline true stamp0 1
        fuel).segments.map (fun z => z.2)).sum = 1 - 0 := by
  constructor
  · intro fuel
    simp only [fracRender_eq]
    exact fracLoop_sum fuel
  · rintro ⟨fuel, h, _⟩
    simp only [fracRender_eq] at h
    rw [fracLoop_never] at h
    exact Bool.false_ne_true h

/-- C1 counterexample: on `fracLoopTimeline` (looping state, frames remain
after clipping) the first dispatched segment carries 0 frames, while the
claim's formula `min(remainingFrames, loopEnd - currentPlayerTime)` yields
`min 1 (1/2 - 0) = 1/2 ≠ 0`: the claim's segment-length formula fails for
the fractional loop bounds that `AKTimelineSetLoop` accepts. -/
theorem c1_counterexample :
    (AKTimeLineRender tts0 true fracLoopTimeline true stamp0 1 1).segments.head?
      = some (⟨0, 1000, true, true⟩, 0)
    ∧ (0 : ℚ) ≠ min (1 : ℚ) ((1 : ℚ) / 2 - 0) := by
  constructor
  · simp only [fracRender_eq]
    rw [show (1 : ℕ) = 0 + 1 from rfl, fracLoop_step]
    rfl
  · rw [min_def]
    norm_num

/-- C1 (amended): for every render call on a timeline in the looping state
(`_loopEnd ≠ 0`) with frames remaining after wait-start clipping, provided
the shadow loop bounds and the clipped player position are whole samples
(`_loopStart = s < L = _loopEnd`, machine ranges respected) — which is what
the start path produces, since `AKTimelineSetState` truncates loop bounds to
`UInt32` — the scheduler emits exactly the spec's schedule: whenever the
unlooped elapsed position has reached `loopEnd` the player-relative
timestamp wraps to `loopStart + ((unlooped - loopStart) mod loopDuration)`,
each segment's frame count is `min(remainingFrames, loopEnd -
currentPlayerTime)`, the callback is invoked once per segment, and the call
completes.  In particular (witness), with loop `[0, 100)` and a 150-frame
render starting exactly at loop position 0, exactly the two segments
`(position 0, 100 frames)` then `(position 0, 50 frames)` are produced. -/
theorem c1_loop_schedule (tts : ℚ) (tl : AKTimeline) (lock : Bool)
    (ts pt : AudioTimeStamp) (n fuel ftr s L p : ℕ)
    (hplan : renderPlan tts (renderUpdated tts (drained tl lock) ts n) ts n
      = some (pt, ftr))
    (hls : (renderUpdated tts (drained tl lock) ts n)._loopStart = (s : ℚ))
    (hle : (renderUpdated tts (drained tl lock) ts n)._loopEnd = (L : ℚ))
    (hsL : s < L) (hL : L ≤ 2 ^ 31)
    (hpv : pt.sampleValid = true) (hps : pt.mSampleTime = (p : ℚ))
    (hftr0 : 0 < ftr) (hftr : ftr < 2 ^ 31) (hfuel : ftr ≤ fuel) :
    (AKTimeLineRender tts true tl lock ts n fuel).completed = true ∧
    (AKTimeLineRender tts true tl lock ts n fuel).segments.map
        (fun z => (z.1.mSampleTime, z.2))
      = (specSegments s L ftr p p ftr).map (fun z => ((z.1 : ℚ), z.2)) := by
  have hL0 : ¬ ((renderUpdated tts (drained tl lock) ts n)._loopEnd = 0) := by
    rw [hle]
    intro h
    have : L = 0 := by exact_mod_cast h
    omega
  have hld : f64ToUInt32 ((renderUpdated tts (drained tl lock) ts n)._loopEnd
      - (renderUpdated tts (drained tl lock) ts n)._loopStart) = L - s := by
    rw [hle, hls, ← Nat.cast_sub hsL.le, f64ToUInt32, ratTrunc_natCast,
      Int.toNat_natCast]
    exact Nat.mod_eq_of_lt (by omega)
  have H := renderLoop_eq_spec tts
    ((renderUpdated tts (drained tl lock) ts n).sampleRate) s L hsL hL fuel ftr
    ftr p p pt hfuel le_rfl hftr hpv hps (fun _ => rfl)
  simp only [AKTimeLineRender]
  rw [hplan]
  dsimp only
  rw [if_neg hL0, hld, hls, hle, hps]
  exact ⟨H.2, H.1⟩

lemma loop100_updated :
    renderUpdated tts0 (drained loopTimeline100 true) stamp0 150
      = loopTimeline100 := by
  simp [renderUpdated, drained, drainMessages, loopTimeline100, stamp0,
    AudioTimeZero, SampleTimeValid, HostTimeValid, SampleAndHostTimeValid]

/-- C1 witness: the spec's concrete scenario.  Sample rate 44100, loop
`[0, 100)`, started at sample 0; a 150-frame render call starting exactly at
loop position 0 produces exactly the two callback segments
`(position 0, 100 frames)` then `(position 0, 50 frames)`, and the call
completes. -/
theorem c1_witness :
    (AKTimeLineRender tts0 true loopTimeline100 true stamp0 150 150).segments.map
        (fun z => (z.1.mSampleTime, z.2)) = [((0 : ℚ), 100), ((0 : ℚ), 50)]
    ∧ (AKTimeLineRender tts0 true loopTimeline100 true stamp0 150 150).completed
      = true := by
  have hplan : renderPlan tts0
      (renderUpdated tts0 (drained loopTimeline100 true) stamp0 150) stamp0 150
      = some (⟨0, 1000, true, true⟩, 150) := by
    rw [loop100_updated]
    simp [renderPlan, loopTimeline100, stamp0, AudioTimeZero, SampleTimeValid,
      HostTimeValid, AudioTimeStampWithSampleHost]
  have hls : (renderUpdated tts0 (drained loopTimeline100 true) stamp0
      150)._loopStart = ((0 : ℕ) : ℚ) := by
    rw [loop100_updated]
    simp [loopTimeline100]
  have hle : (renderUpdated tts0 (drained loopTimeline100 true) stamp0
      150)._loopEnd = ((100 : ℕ) : ℚ) := by
    rw [loop100_updated]
    simp [loopTimeline100]
  have hspec : specSegments 0 100 150 0 0 150 = [(0, 100), (0, 50)] := by decide
  have H := c1_loop_schedule tts0 loopTimeline100 true stamp0
    (⟨0, 1000, true, true⟩ : AudioTimeStamp) 150 150 150 0 100 0 hplan hls hle
    (by norm_num) (by norm_num) rfl (by norm_num) (by norm_num) (by norm_num)
    le_rfl
  refine ⟨H.2.trans ?_, H.1⟩
  rw [hspec]
  norm_num

/-- C3 (amended): on a started, resolved timeline whose control and shadow
loop fields are synchronized to the window `[s, s+d)` set by
`AKTimelineSetLoop(s, d)` with `d > 0`, `AKTimelineTimeAtTime` returns the
elapsed sample position `e` unwrapped whenever `e ≤ s + d`, and the wrapped
position `s + fmod(e - s, d)` whenever `e > s + d`: the source's
`sampleTimeTotal <= timeline->loopEnd` test makes the wrap begin strictly
after `s + d`, not at `e >= s + d` as the claim states. -/
theorem c3_wrap_threshold (tts : ℚ) (tl : AKTimeline) (t : AudioTimeStamp)
    (s d : ℚ)
    (hbv : tl.baseTime.sampleValid = true)
    (hanchor : SampleAndHostTimeValid tl.anchorTime = true)
    (htv : t.sampleValid = true)
    (hsync : tl._baseTime = tl.baseTime)
    (hls : tl.loopStart = s) (hlss : tl._loopStart = s)
    (hle : tl.loopEnd = s + d) (hles : tl._loopEnd = s + d)
    (hd : 0 < d) (hs : 0 ≤ s) :
    (t.mSampleTime - tl.baseTime.mSampleTime ≤ s + d →
      (AKTimelineTimeAtTime tts tl t).1
        = t.mSampleTime - tl.baseTime.mSampleTime)
    ∧ (t.mSampleTime - tl.baseTime.mSampleTime > s + d →
      (AKTimelineTimeAtTime tts tl t).1
        = s + fmodQ (t.mSampleTime - tl.baseTime.mSampleTime - s) d) := by
  have hstart : AKTimelineIsStarted tl = true := by
    simp [AKTimelineIsStarted, SampleTimeValid, hbv]
  have hSv : SampleTimeValid tl.baseTime = true := by
    simp [SampleTimeValid, hbv]
  have hTv : SampleTimeValid t = true := by
    simp [SampleTimeValid, htv]
  unfold AKTimelineTimeAtTime
  dsimp only
  rw [if_neg (show ¬ ¬ (AKTimelineIsStarted tl = true) from by simp [hstart])]
  rw [if_neg (show ¬ ¬ (SampleAndHostTimeValid tl.anchorTime = true) from by
    simp [hanchor])]
  rw [if_neg (show ¬ ¬ (SampleTimeValid tl.baseTime = true) from by simp [hSv])]
  rw [if_neg (show ¬ ¬ (SampleTimeValid t = true) from by simp [hTv])]
  rw [hsync, hles, hle, hlss, hls]
  constructor
  · intro he
    rw [if_pos (show s + d = 0
        ∨ t.mSampleTime - tl.baseTime.mSampleTime ≤ s + d from Or.inr he)]
  · intro he
    rw [if_neg (show ¬ (s + d = 0
        ∨ t.mSampleTime - tl.baseTime.mSampleTime ≤ s + d) from by
      rintro (h | h)
      · linarith
      · linarith)]
    show s + fmodQ (t.mSampleTime - tl.baseTime.mSampleTime - s) (s + d - s)
      = s + fmodQ (t.mSampleTime - tl.baseTime.mSampleTime - s) d
    rw [show s + d - s = d by ring]

/-- C3 counterexample: loop `[0, 100)` (`setLoop(0, 100)`), elapsed position
`e = 100 = s + d` exactly.  The claim says the result is
`s + ((e - s) mod d) = 0`; the code returns the unwrapped position `100`. -/
theorem c3_counterexample :
    (AKTimelineTimeAtTime tts0 loopTimeline100 ⟨100, 2000, true, true⟩).1 = 100
    ∧ (100 : ℚ) ≠ 0 + fmodQ (100 - 0) 100 := by
  constructor
  · norm_num [AKTimelineTimeAtTime, AKTimelineIsStarted, SampleTimeValid,
      HostTimeValid, SampleAndHostTimeValid, loopTimeline100, stamp0]
  · have htr : ratTrunc ((100 - 0 : ℚ) / 100) = 1 := by
      rw [show ((100 - 0 : ℚ) / 100) = 1 by norm_num, ratTrunc,
        if_pos (by norm_num)]
      exact Int.floor_one
    rw [fmodQ, htr]
    norm_num

/-- C5 (amended): `AKTimelineTimeAtTime` leaves every field of the timeline
except `baseTime` unchanged; `baseTime` itself is only replaced (by its
extrapolation against the anchor, an in-place caching write on source line
83) when it lacks a valid sample time, and the call is fully pure whenever
`baseTime` is already sample-valid. -/
theorem c5_pure_except_baseTime (tts : ℚ) (tl : AKTimeline) (t : AudioTimeStamp) :
    ((AKTimelineTimeAtTime tts tl t).2
      = { tl with baseTime := (AKTimelineTimeAtTime tts tl t).2.baseTime })
    ∧ (tl.baseTime.sampleValid = true → (AKTimelineTimeAtTime tts tl t).2 = tl) := by
  constructor
  · unfold AKTimelineTimeAtTime
    dsimp only
    split_ifs <;> rfl
  · intro h
    unfold AKTimelineTimeAtTime
    dsimp only
    split_ifs <;>
      first
        | rfl
        | simp_all [SampleTimeValid]

/-- C3 witness: loop `[0, 100)`, elapsed position `e = 250 > s + d`; the
query returns the wrapped position `0 + fmod(250 - 0, 100) = 50`. -/
theorem c3_witness :
    (AKTimelineTimeAtTime tts0 loopTimeline100 ⟨250, 2000, true, true⟩).1
      = 50 := by
  have H := c3_wrap_threshold tts0 loopTimeline100
    (⟨250, 2000, true, true⟩ : AudioTimeStamp) 0 100 rfl rfl rfl rfl rfl rfl
    (by norm_num [loopTimeline100]) (by norm_num [loopTimeline100])
    (by norm_num) le_rfl
  rw [H.2 (by norm_num [loopTimeline100, stamp0])]
  have htr : ratTrunc (((⟨250, 2000, true, true⟩ : AudioTimeStamp).mSampleTime
      - loopTimeline100.baseTime.mSampleTime - 0) / 100) = 2 := by
    rw [show (((⟨250, 2000, true, true⟩ : AudioTimeStamp).mSampleTime
        - loopTimeline100.baseTime.mSampleTime - 0) / 100 : ℚ) = 5 / 2 by
      norm_num [loopTimeline100, stamp0]]
    rw [ratTrunc, if_pos (by norm_num)]
    norm_num [Int.floor_eq_iff]
  rw [fmodQ, htr]
  norm_num [loopTimeline100, stamp0]

/-- Started timeline whose base time is valid only in the host domain (set
by a host-only `AKTimelineStartAtTime` before the anchor was latched), with
the anchor since resolved: the state in which `AKTimelineTimeAtTime`
performs its in-place write to `timeline->baseTime`. -/
def hostBaseTimeline : AKTimeline :=
  { sampleRate := 1000, messageQueue := [], loopStart := 0, loopEnd := 0,
    baseTime := ⟨0, 5000, false, true⟩, waitStart := AudioTimeZero,
    idleTime := 0, anchorTime := ⟨0, 1000, true, true⟩,
    lastRenderTime := AudioTimeZero, lastRenderFrames := 0,
    _baseTime := ⟨0, 5000, false, true⟩, _loopStart := 0, _loopEnd := 0,
    _waitStart := AudioTimeZero }

/-- C5 counterexample: `AKTimelineTimeAtTime` is not a pure query.  On
`hostBaseTimeline` (started, anchor resolved, `baseTime` host-only) the call
writes `timeline->baseTime` in place (source line 83), so the timeline it
leaves behind differs from the one passed in. -/
theorem c5_counterexample :
    (AKTimelineTimeAtTime tts0 hostBaseTimeline stamp0).2
      ≠ hostBaseTimeline := by
  intro h
  have h2 := congrArg (fun z => z.baseTime.sampleValid) h
  simp only [AKTimelineTimeAtTime, AKTimelineIsStarted, SampleTimeValid,
    HostTimeValid, SampleAndHostTimeValid, extrapolateTime, hostBaseTimeline,
    stamp0] at h2
  norm_num at h2

/-- C5 witness: on a timeline whose base time is already sample-valid
(`loopTimeline100`), the query leaves the timeline exactly unchanged. -/
theorem c5_witness :
    (AKTimelineTimeAtTime tts0 loopTimeline100 stamp0).2 = loopTimeline100 :=
  (c5_pure_except_baseTime tts0 loopTimeline100 stamp0).2 rfl

/-- C6 (amended): when the post-drain shadow base time has exactly one valid
domain, `AKTimeLineRender` derives the missing domain by extrapolation
against the current render call's device timestamp (source line 187), not
against the AnchorTime correlation point; the two coincide only when the
device timestamp equals the anchor (e.g. on the anchor-latching call). -/
theorem c6_baseTime_extrapolated_against_device (tts : ℚ) (hasCb : Bool)
    (tl : AKTimeline) (lock : Bool) (ts : AudioTimeStamp) (n fuel : ℕ)
    (hx : ((drained tl lock)._baseTime.sampleValid = true
          ∧ (drained tl lock)._baseTime.hostValid = false)
        ∨ ((drained tl lock)._baseTime.sampleValid = false
          ∧ (drained tl lock)._baseTime.hostValid = true)) :
    (AKTimeLineRender tts hasCb tl lock ts n fuel).timeline._baseTime
      = extrapolateTime tts (drained tl lock).sampleRate
          (drained tl lock)._baseTime ts := by
  rw [render_timeline_eq]
  exact renderUpdated_baseTime_oneDomain tts (drained tl lock) ts n hx

/-- C6 witness: on `hostBaseTimeline` (shadow base time host-only), a render
call resolves `_baseTime` to its extrapolation against the device
timestamp. -/
theorem c6_witness :
    (AKTimeLineRender tts0 true hostBaseTimeline true stamp0 2
      2).timeline._baseTime
      = extrapolateTime tts0 (drained hostBaseTimeline true).sampleRate
          (drained hostBaseTimeline true)._baseTime stamp0 :=
  c6_baseTime_extrapolated_against_device tts0 true hostBaseTimeline true
    stamp0 2 2 (Or.inr ⟨rfl, rfl⟩)

/-- C6 counterexample: the claim says the missing domain is derived against
AnchorTime.  On `hostBaseTimeline` (shadow base time host-only, hence
exactly one valid domain) rendered at device timestamp
`(100, host 999999)` ≠ anchor `(0, host 1000)`, the resolved `_baseTime`
differs from the extrapolation against the anchor. -/
theorem c6_counterexample :
    ((drained hostBaseTimeline true)._baseTime.sampleValid = false
      ∧ (drained hostBaseTimeline true)._baseTime.hostValid = true)
    ∧ (AKTimeLineRender tts0 true hostBaseTimeline true
        (⟨100, 999999, true, true⟩ : AudioTimeStamp) 2 2).timeline._baseTime
      ≠ extrapolateTime tts0 hostBaseTimeline.sampleRate
          hostBaseTimeline._baseTime hostBaseTimeline.anchorTime := by
  refine ⟨⟨rfl, rfl⟩, ?_⟩
  rw [render_timeline_eq,
    renderUpdated_baseTime_oneDomain tts0 (drained hostBaseTimeline true)
      (⟨100, 999999, true, true⟩ : AudioTimeStamp) 2 (Or.inr ⟨rfl, rfl⟩)]
  intro h
  have h2 := congrArg (fun z => z.mSampleTime) h
  norm_num [extrapolateTime, safeSubtract, cround, drained, drainMessages,
    hostBaseTimeline, tts0, AudioTimeZero] at h2

lemma TimeStampOffset_eval (tts r ms : ℚ) (mh : ℕ) (k : ℤ)
    (hnoclamp : ¬ (cround ((k : ℚ) / r / tts) < 0
      ∧ (mh : ℤ) < -cround ((k : ℚ) / r / tts))) :
    TimeStampOffset tts r ⟨ms, mh, true, true⟩ k
      = ⟨ms + (k : ℚ), u64wrap ((mh : ℤ) + cround ((k : ℚ) / r / tts)),
         true, true⟩ := by
  simp [TimeStampOffset, hnoclamp]

/-- C7: for every dual-domain-valid timestamp `t`, sample rate `r > 0` and
sample delta `n` not triggering the unsigned host-time underflow clamp in
either direction (and not overflowing the `UInt64` host range),
`offset(offset(t, n, r), -n, r)` equals `t` within one host tick: the sample
component exactly (here: exactly zero error, which is within the claim's
one-tick tolerance on the host component), and the validity flags are
preserved. -/
theorem c7_offset_roundtrip (tts r : ℚ) (t : AudioTimeStamp) (n : ℤ)
    (hs : t.sampleValid = true) (hh : t.hostValid = true)
    (hr : 0 < r) (htts : 0 < tts) (hhost : t.mHostTime < 2 ^ 64)
    (hclamp : ¬ (cround ((n : ℚ) / r / tts) < 0
      ∧ (t.mHostTime : ℤ) < -cround ((n : ℚ) / r / tts)))
    (hover : (t.mHostTime : ℤ) + cround ((n : ℚ) / r / tts) < 2 ^ 64) :
    (TimeStampOffset tts r (TimeStampOffset tts r t n) (-n)).mSampleTime
        = t.mSampleTime
    ∧ (((TimeStampOffset tts r (TimeStampOffset tts r t n) (-n)).mHostTime : ℤ)
        - (t.mHostTime : ℤ)).natAbs ≤ 1
    ∧ (TimeStampOffset tts r (TimeStampOffset tts r t n) (-n)).sampleValid
        = t.sampleValid
    ∧ (TimeStampOffset tts r (TimeStampOffset tts r t n) (-n)).hostValid
        = t.hostValid := by
  obtain ⟨ms, mh, sv, hv⟩ := t
  simp only at hs hh hclamp hover hhost
  subst hs
  subst hh
  have hnn : 0 ≤ (mh : ℤ) + cround ((n : ℚ) / r / tts) := by omega
  have hM : u64wrap ((mh : ℤ) + cround ((n : ℚ) / r / tts))
      = ((mh : ℤ) + cround ((n : ℚ) / r / tts)).toNat := by
    rw [u64wrap, Int.emod_eq_of_lt hnn hover]
  have ho2 : cround (((-n : ℤ) : ℚ) / r / tts) = -cround ((n : ℚ) / r / tts) := by
    rw [show (((-n : ℤ) : ℚ) / r / tts) = -((n : ℚ) / r / tts) by push_cast; ring,
      cround_neg]
  have hMZ : ((((mh : ℤ) + cround ((n : ℚ) / r / tts)).toNat : ℤ))
      = (mh : ℤ) + cround ((n : ℚ) / r / tts) := Int.toNat_of_nonneg hnn
  have hclamp2 : ¬ (cround (((-n : ℤ) : ℚ) / r / tts) < 0
      ∧ ((((mh : ℤ) + cround ((n : ℚ) / r / tts)).toNat : ℕ) : ℤ)
        < -cround (((-n : ℤ) : ℚ) / r / tts)) := by
    rw [ho2]
    rw [hMZ]
    omega
  rw [TimeStampOffset_eval tts r ms mh n hclamp, hM,
    TimeStampOffset_eval tts r (ms + (n : ℚ))
      ((mh : ℤ) + cround ((n : ℚ) / r / tts)).toNat (-n) hclamp2]
  refine ⟨by push_cast; ring, ?_, rfl, rfl⟩
  rw [ho2, u64wrap, hMZ]
  rw [show (mh : ℤ) + cround ((n : ℚ) / r / tts)
      + -cround ((n : ℚ) / r / tts) = (mh : ℤ) by ring]
  rw [Int.emod_eq_of_lt (by positivity) (by exact_mod_cast hhost)]
  simp

/-- C7 witness: `t = (sample 100, host 5000)`, `n = 441` samples at rate
44100 with one-millisecond ticks: the offset round trip returns exactly to
`t`. -/
theorem c7_witness :
    (TimeStampOffset tts0 44100 (TimeStampOffset tts0 44100
        ⟨100, 5000, true, true⟩ 441) (-441)).mSampleTime = 100
    ∧ (((TimeStampOffset tts0 44100 (TimeStampOffset tts0 44100
        ⟨100, 5000, true, true⟩ 441) (-441)).mHostTime : ℤ)
        - ((5000 : ℕ) : ℤ)).natAbs ≤ 1 := by
  have hc : cround (((441 : ℤ) : ℚ) / 44100 / tts0) = 10 := by
    rw [show (((441 : ℤ) : ℚ) / 44100 / tts0) = 10 by norm_num [tts0], cround,
      if_pos (by norm_num)]
    norm_num [Int.floor_eq_iff]
  have H := c7_offset_roundtrip tts0 44100 ⟨100, 5000, true, true⟩ 441 rfl rfl
    (by norm_num) (by norm_num [tts0]) (by norm_num)
    (by rw [hc]; norm_num) (by rw [hc]; norm_num)
  exact ⟨H.1, H.2.1⟩

/-- C8 (amended): every render call issued while the message-channel lock is
held elsewhere proceeds without ever acquiring the lock, and,
unconditionally: no message is consumed (the queue keeps exactly its prior
contents), `_loopStart`/`_loopEnd` keep exactly their prior values, and the
call behaves exactly like an uncontended render on the prior ShadowState
with no pending messages — same dispatched segments, same loop completion,
and the same resulting timeline apart from the untouched queue.  In
particular `_baseTime`/`_waitStart` are at most replaced by their usual
in-place domain resolutions, computed from their prior values only, never
from pending messages; and they keep exactly their prior values whenever
they were already resolved (`_baseTime` both-domains-valid or wholly
invalid; `_waitStart` not host-only). -/
theorem c8_contended_render (tts : ℚ) (hasCb : Bool) (tl : AKTimeline)
    (ts : AudioTimeStamp) (n fuel : ℕ) :
    (AKTimeLineRender tts hasCb tl false ts n fuel).timeline.messageQueue
        = tl.messageQueue
    ∧ (AKTimeLineRender tts hasCb tl false ts n fuel).timeline._loopStart
        = tl._loopStart
    ∧ (AKTimeLineRender tts hasCb tl false ts n fuel).timeline._loopEnd
        = tl._loopEnd
    ∧ (AKTimeLineRender tts hasCb tl false ts n fuel).segments
        = (AKTimeLineRender tts hasCb { tl with messageQueue := [] } true ts n
            fuel).segments
    ∧ (AKTimeLineRender tts hasCb tl false ts n fuel).completed
        = (AKTimeLineRender tts hasCb { tl with messageQueue := [] } true ts n
            fuel).completed
    ∧ (AKTimeLineRender tts hasCb tl false ts n fuel).timeline
        = { (AKTimeLineRender tts hasCb { tl with messageQueue := [] } true ts
              n fuel).timeline with messageQueue := tl.messageQueue }
    ∧ ((SampleAndHostTimeValid tl._baseTime = true
          ∨ (tl._baseTime.sampleValid = false ∧ tl._baseTime.hostValid = false))
        → (AKTimeLineRender tts hasCb tl false ts n fuel).timeline._baseTime
            = tl._baseTime)
    ∧ ((tl._waitStart.hostValid = true → tl._waitStart.sampleValid = true)
        → (AKTimeLineRender tts hasCb tl false ts n fuel).timeline._waitStart
            = tl._waitStart) := by
  have hq : drained tl false = tl := rfl
  have hd2 : drained { tl with messageQueue := [] } true
      = { tl with messageQueue := [] } := drained_empty_true _ rfl
  refine ⟨?_, ?_, ?_, ?_, ?_, ?_, ?_, ?_⟩
  · rw [render_timeline_eq, hq, renderUpdated_messageQueue]
  · rw [render_timeline_eq, hq, renderUpdated_loopStart]
  · rw [render_timeline_eq, hq, renderUpdated_loopEnd]
  · simp only [AKTimeLineRender, hq, hd2, renderUpdated_queue_set,
      renderPlan_queue_set]
    split
    · rfl
    · split_ifs <;> rfl
  · simp only [AKTimeLineRender, hq, hd2, renderUpdated_queue_set,
      renderPlan_queue_set]
    split
    · rfl
    · split_ifs <;> rfl
  · have hL : (AKTimeLineRender tts hasCb tl false ts n fuel).timeline
        = renderUpdated tts tl ts n := by
      rw [render_timeline_eq, hq]
    have hR : (AKTimeLineRender tts hasCb { tl with messageQueue := [] } true
          ts n fuel).timeline
        = { renderUpdated tts tl ts n with messageQueue := [] } := by
      rw [render_timeline_eq, hd2, renderUpdated_queue_set]
    rw [hL, hR, ← renderUpdated_messageQueue tts tl ts n]
  · intro hb
    rw [render_timeline_eq, hq]
    exact renderUpdated_baseTime_resolved tts tl ts n hb
  · intro hw
    rw [render_timeline_eq, hq]
    exact renderUpdated_waitStart_resolved tts tl ts n hw

/-- Resolved timeline with one pending loop-change message in the channel,
used to exercise a contended render. -/
def pendingMsgTimeline : AKTimeline :=
  { loopTimeline100 with messageQueue := [⟨20, 50, stamp0, AudioTimeZero⟩] }

/-- C8 witness: a contended render on a resolved timeline with a pending
message consumes nothing and keeps the whole shadow state, the two
resolvedness side conditions being discharged at the concrete input. -/
theorem c8_witness :
    (AKTimeLineRender tts0 true pendingMsgTimeline false stamp0 10
        10).timeline.messageQueue = pendingMsgTimeline.messageQueue
    ∧ (AKTimeLineRender tts0 true pendingMsgTimeline false stamp0 10
        10).timeline._baseTime = pendingMsgTimeline._baseTime
    ∧ (AKTimeLineRender tts0 true pendingMsgTimeline false stamp0 10
        10).timeline._loopEnd = pendingMsgTimeline._loopEnd
    ∧ (AKTimeLineRender tts0 true pendingMsgTimeline false stamp0 10
        10).timeline._waitStart = pendingMsgTimeline._waitStart := by
  have H := c8_contended_render tts0 true pendingMsgTimeline stamp0 10 10
  exact ⟨H.1, H.2.2.2.2.2.2.1 (Or.inl rfl), H.2.2.1,
    H.2.2.2.2.2.2.2 (fun h => Bool.noConfusion h)⟩

/-- C8 counterexample: the claim as stated says all four shadow fields keep
exactly their prior values in a contended render.  On `hostBaseTimeline`
(shadow base time host-only) the contended call still performs the in-place
resolution of `_baseTime` (source line 187), changing it. -/
theorem c8_counterexample :
    (AKTimeLineRender tts0 true hostBaseTimeline false stamp0 2
        2).timeline._baseTime ≠ hostBaseTimeline._baseTime := by
  rw [render_timeline_eq,
    show drained hostBaseTimeline false = hostBaseTimeline from rfl,
    renderUpdated_baseTime_oneDomain tts0 hostBaseTimeline stamp0 2
      (Or.inr ⟨rfl, rfl⟩)]
  intro h
  have h2 := congrArg (fun z => z.sampleValid) h
  simp [extrapolateTime, hostBaseTimeline] at h2

/-- C9: on a not-started timeline, `AKTimelineStartAtTime` routes the
`Float64` loop bounds through `AKTimelineSetState`'s `UInt32` parameters, so
the stored control-state loop bounds and the bounds of the enqueued message
both equal the `UInt32` conversions (whole-sample truncations) of the
desired `Float64` values. -/
theorem c9_loop_bounds_truncated (tts : ℚ) (tl : AKTimeline)
    (t : AudioTimeStamp) (h : AKTimelineIsStarted tl = false) :
    ((AKTimelineStartAtTime tts tl t).loopStart
        = ((f64ToUInt32 tl.loopStart : ℕ) : ℚ))
    ∧ ((AKTimelineStartAtTime tts tl t).loopEnd
        = ((f64ToUInt32 tl.loopEnd : ℕ) : ℚ))
    ∧ ((AKTimelineStartAtTime tts tl t).messageQueue.getLast?
        = some ⟨((f64ToUInt32 tl.loopStart : ℕ) : ℚ),
                ((f64ToUInt32 tl.loopEnd : ℕ) : ℚ),
                (AKTimelineStartAtTime tts tl t).baseTime,
                (AKTimelineStartAtTime tts tl t).waitStart⟩) := by
  unfold AKTimelineStartAtTime
  rw [if_neg (by simp [h])]
  unfold AKTimelineSetState AKTimelineSyncronize AKTimelineSendMessage
  dsimp only
  refine ⟨rfl, rfl, ?_⟩
  simp [List.getLast?_concat]

/-- Not-started timeline with the fractional loop window `[1/2, 21/2)`
requested via `AKTimelineSetLoop(0.5, 10)`. -/
def fracBoundsIdle : AKTimeline :=
  { sampleRate := 44100, messageQueue := [], loopStart := 1 / 2,
    loopEnd := 21 / 2, baseTime := AudioTimeZero, waitStart := AudioTimeZero,
    idleTime := 0, anchorTime := AudioTimeZero,
    lastRenderTime := AudioTimeZero, lastRenderFrames := 0,
    _baseTime := AudioTimeZero, _loopStart := 0, _loopEnd := 0,
    _waitStart := AudioTimeZero }

/-- C9 witness: starting a not-started timeline with desired loop bounds
`0.5` and `10.5` stores the truncated whole-sample bounds `0` and `10`. -/
theorem c9_witness :
    (AKTimelineStartAtTime tts0 fracBoundsIdle stamp0).loopStart = 0
    ∧ (AKTimelineStartAtTime tts0 fracBoundsIdle stamp0).loopEnd = 10 := by
  have H := c9_loop_bounds_truncated tts0 fracBoundsIdle stamp0 rfl
  constructor
  · rw [H.1]
    norm_num [f64ToUInt32, show fracBoundsIdle.loopStart = 1 / 2 from rfl,
      ratTrunc_half]
  · have htr : ratTrunc (21 / 2 : ℚ) = 10 := by
      rw [ratTrunc, if_pos (by norm_num)]
      norm_num [Int.floor_eq_iff]
    have hf : f64ToUInt32 fracBoundsIdle.loopEnd = 10 := by
      rw [show fracBoundsIdle.loopEnd = 21 / 2 from rfl, f64ToUInt32, htr]
      decide
    rw [H.2.1, hf]
    norm_num

/-- C10: a NULL client callback is tolerated: a render call with a NULL
callback performs exactly the state updates of the same call with a
non-NULL callback (message drain, anchor latch, last-render bookkeeping,
base-time resolution, clipping and loop-segment advancement) and invokes no
callback; the loop also runs identically (same completion). -/
theorem c10_null_callback (tts : ℚ) (tl : AKTimeline) (lock : Bool)
    (ts : AudioTimeStamp) (n fuel : ℕ) :
    (AKTimeLineRender tts false tl lock ts n fuel).segments = []
    ∧ (AKTimeLineRender tts false tl lock ts n fuel).timeline
        = (AKTimeLineRender tts true tl lock ts n fuel).timeline
    ∧ (AKTimeLineRender tts false tl lock ts n fuel).completed
        = (AKTimeLineRender tts true tl lock ts n fuel).completed := by
  rw [render_noCb]
  exact ⟨rfl, rfl, rfl⟩
